import Mathlib

/-!
Shallow embedding of `tfx/orchestration/data_types_utils.py`: the value
marshalling layer between plain Python primitives, the `pipeline_pb2.Value`
wire envelope (field value plus optional schema) and the bare
`metadata_store_pb2.Value` storage envelope.  Python's dynamic values are
modelled by a closed tagged union; the `isinstance` chains of the source are
translated branch for branch, preserving their order (in particular the fact
that `isinstance(v, int)` is true for a Python `bool`).
-/

/-- Error taxonomy of the source, following the names the spec gives the
raise sites: `unsupportedType` for `ValueError/RuntimeError` "Unexpected
type"/"Unsupported type"/"unexpected type", `unresolvedValue` for "Expecting
field_value but got ...", `unsupportedValue` for "Unexpected value type ...",
`malformedValue` for a JSON decode failure inside the list codec, and
`typeError` for a Python `TypeError` such as `getattr(msg, None)` when no
oneof member is populated. -/
inductive Err where
  | unsupportedType
  | unresolvedValue
  | unsupportedValue
  | malformedValue
  | typeError
  deriving DecidableEq

/-- A Python float.  The source never computes with floats, it only copies
them between slots, so a float is modelled by its bit pattern. -/
structure PyFloat where
  bits : Nat
  deriving DecidableEq

/-- `metadata_store_pb2.Value`: a proto with a `oneof value` over
`int_value`, `double_value`, `string_value`; leaving every member unset is a
valid state. -/
inductive MetadataValue where
  | unset
  | int_value (i : Int)
  | double_value (d : PyFloat)
  | string_value (s : String)
  deriving DecidableEq

/-- `types.Property`: the plain primitive values (int/float/str) the
translators accept and produce. -/
inductive Property where
  | pInt (i : Int)
  | pFloat (f : PyFloat)
  | pStr (s : String)
  deriving DecidableEq

/-- `metadata_store_pb2.PropertyType`, the classifier's result enum. -/
inductive PropertyType where
  | INT
  | DOUBLE
  | STRING
  deriving DecidableEq

/-- Modelled from the spec: the Structured-Message Codec's
`describe(type_name) -> descriptor_set_bytes` (the source calls
`proto_utils.build_file_descriptor_set`, which lives outside `src/`).  The
descriptor set is determined by the message type it was derived from, so it
is represented by that type name. -/
structure FileDescriptorSet where
  fromType : String
  deriving DecidableEq

/-- `pipeline_pb2.Value.Schema.ContainerType`. -/
inductive ContainerType where
  | UNSPECIFIED
  | LIST
  deriving DecidableEq

/-- The `oneof type` of `pipeline_pb2.Value.Schema.ValueType`:
`boolean_type : bool` or `proto_metadata` (message type name plus file
descriptor set), or unset. -/
inductive ValueType where
  | unset
  | boolean_type (b : Bool)
  | proto_metadata (message_type : String) (file_descriptors : FileDescriptorSet)
  deriving DecidableEq

/-- `pipeline_pb2.Value.Schema`. -/
structure Schema where
  container_type : ContainerType
  value_type : ValueType
  deriving DecidableEq

/-- The `oneof value` of `pipeline_pb2.Value`: a resolved `field_value`, or
one of the unresolved indirections (`runtime_parameter`, `placeholder`), or
unset. -/
inductive PVOneof where
  | unset
  | field_value (fv : MetadataValue)
  | runtime_parameter (name : String)
  | placeholder (p : String)
  deriving DecidableEq

/-- `pipeline_pb2.Value`: the oneof plus the schema message (proto default:
both unset/zero). -/
structure ParameterValue where
  value : PVOneof
  schema : Schema
  deriving DecidableEq

/-- A Python runtime value as seen by the translators: the primitives,
`bool` (a distinct runtime type, though `isinstance(b, int)` holds for it),
a `pipeline_pb2.Value`, or any other object. -/
inductive PyVal where
  | vBool (b : Bool)
  | vInt (i : Int)
  | vFloat (f : PyFloat)
  | vStr (s : String)
  | vParam (p : ParameterValue)
  | vOther
  deriving DecidableEq

/-- The declared `property_type: Optional[Type]` argument of
`set_parameter_value`: a `typing.List[T]` generic alias, another generic
alias (non-list origin), `bool`, a protobuf message class (with its
`DESCRIPTOR.full_name`), or any other plain class such as `int` or `str`. -/
inductive PyType where
  | listOf (t : PyType)
  | otherGeneric
  | boolType
  | messageClass (fullName : String)
  | otherClass
  deriving DecidableEq

/-- The injection of a plain primitive into the runtime value union. -/
def Property.toPyVal : Property → PyVal
  | .pInt i => .vInt i
  | .pFloat f => .vFloat f
  | .pStr s => .vStr s

/-- The `metadata_store_pb2.Value` holding a given primitive in the matching
slot. -/
def Property.toMetadataValue : Property → MetadataValue
  | .pInt i => .int_value i
  | .pFloat f => .double_value f
  | .pStr s => .string_value s

/-- Embeds `getattr(v, v.WhichOneof('value'))` on a `metadata_store_pb2.Value`:
returns the populated member, and raises `TypeError` (`getattr(v, None)`)
when no member is set. -/
def getattr_value : MetadataValue → Except Err Property
  | .unset => .error .typeError
  | .int_value i => .ok (.pInt i)
  | .double_value d => .ok (.pFloat d)
  | .string_value s => .ok (.pStr s)

/-- `get_metadata_value` (source lines 189-201): returns the populated
primitive slot of a `metadata_store_pb2.Value`, or `None` when
`WhichOneof('value')` is `None`. -/
def get_metadata_value : MetadataValue → Option Property
  | .unset => none
  | .int_value i => some (.pInt i)
  | .double_value d => some (.pFloat d)
  | .string_value s => some (.pStr s)

/-- `get_value` (source lines 169-186): requires the `oneof value` to be
`field_value` (else `RuntimeError`, the spec's `UnresolvedValueError`), then
returns `getattr(field_value, field_value.WhichOneof('value'))`. -/
def get_value (tfx_value : ParameterValue) : Except Err Property :=
  match tfx_value.value with
  | .field_value fv => getattr_value fv
  | _ => .error .unresolvedValue

/-- `get_metadata_value_type` (source lines 129-166).  The first branch is
`isinstance(value, int)`, which is true for a Python `bool` as well (there
is no boolean guard here), so a boolean input is classified `INT`. -/
def get_metadata_value_type : PyVal → Except Err PropertyType
  | .vInt _ => .ok .INT
  | .vBool _ => .ok .INT
  | .vFloat _ => .ok .DOUBLE
  | .vStr _ => .ok .STRING
  | .vParam p =>
    match p.value with
    | .field_value fv =>
      match fv with
      | .int_value _ => .ok .INT
      | .double_value _ => .ok .DOUBLE
      | .string_value _ => .ok .STRING
      | .unset => .error .unsupportedValue
    | _ => .error .unresolvedValue
  | .vOther => .error .unsupportedValue

/-- `set_metadata_value` (source lines 204-235), with the in-place mutation
made explicit: the result is the pair of the call's outcome (the returned
message, or the raised error) and the state of the passed-in target message
after the call.  Branch order follows the source: the integer branch is
`isinstance(value, int) and not isinstance(value, bool)`, so a boolean falls
through every branch to the final `raise ValueError`; on every raising path
the raise happens before any assignment to the target, and on every success
path the function returns the mutated target itself. -/
def set_metadata_value_state (metadata_value : MetadataValue) :
    PyVal → Except Err MetadataValue × MetadataValue
  | .vBool _ => (.error .unsupportedType, metadata_value)
  | .vInt i => (.ok (.int_value i), .int_value i)
  | .vFloat f => (.ok (.double_value f), .double_value f)
  | .vStr s => (.ok (.string_value s), .string_value s)
  | .vParam p =>
    match p.value with
    | .field_value fv => (.ok fv, fv)
    | _ => (.error .unresolvedValue, metadata_value)
  | .vOther => (.error .unsupportedType, metadata_value)

/-- `set_metadata_value`: the call's outcome alone. -/
def set_metadata_value (metadata_value : MetadataValue) (value : PyVal) :
    Except Err MetadataValue :=
  (set_metadata_value_state metadata_value value).1

/-- `build_value_dict` (source lines 64-71): element-wise
`getattr(v, v.WhichOneof('value'))` over the mapping, in order; an unset
value raises `TypeError` out of the loop. -/
def build_value_dict : List (String × MetadataValue) → Except Err (List (String × Property))
  | [] => .ok []
  | (k, v) :: rest =>
    match getattr_value v with
    | .error e => .error e
    | .ok p =>
      match build_value_dict rest with
      | .error e => .error e
      | .ok tail => .ok ((k, p) :: tail)

/-- The body of `build_metadata_value_dict`'s loop (source lines 81-90):
`isinstance(v, str)` first, then `isinstance(v, int)` — which is true for a
boolean, whose proto assignment stores 1/0 in the integer slot — then
`isinstance(v, float)`, else `raise RuntimeError`. -/
def metadata_value_of (v : PyVal) : Except Err MetadataValue :=
  match v with
  | .vStr s => .ok (.string_value s)
  | .vInt i => .ok (.int_value i)
  | .vBool b => .ok (.int_value (if b then 1 else 0))
  | .vFloat f => .ok (.double_value f)
  | .vParam _ => .error .unsupportedType
  | .vOther => .error .unsupportedType

/-- `build_metadata_value_dict` (source lines 74-92). -/
def build_metadata_value_dict : List (String × PyVal) → Except Err (List (String × MetadataValue))
  | [] => .ok []
  | (k, v) :: rest =>
    match metadata_value_of v with
    | .error e => .error e
    | .ok mv =>
      match build_metadata_value_dict rest with
      | .error e => .error e
      | .ok tail => .ok ((k, mv) :: tail)

/-- Modelled from the spec: the List Codec collaborator (`tfx.utils.json_utils`,
outside `src/`), a generic JSON-like literal codec used for list packing and
boolean literal decode.  The fragment these values use: null, booleans,
integers, strings, arrays. -/
inductive JsonValue where
  | jnull
  | jbool (b : Bool)
  | jint (i : Int)
  | jstr (s : String)
  | jlist (l : List JsonValue)

/-- Skips JSON whitespace. -/
def skipWs : List Char → List Char
  | c :: rest =>
    if c = ' ' ∨ c = '\n' ∨ c = '\t' ∨ c = '\r' then skipWs rest else c :: rest
  | [] => []

/-- Reads the characters of a JSON string up to the closing quote (the
payloads in play contain no escapes; an escape or an unterminated string is
a decode failure). -/
def readStringChars : List Char → Option (List Char × List Char)
  | [] => none
  | c :: rest =>
    if c = '"' then some ([], rest)
    else if c = '\\' then none
    else (readStringChars rest).map (fun p => (c :: p.1, p.2))

/-- Digits to a natural number. -/
def digitsToNat (ds : List Char) : Nat :=
  ds.foldl (fun acc c => acc * 10 + (c.toNat - 48)) 0

mutual

/-- Modelled from the spec: `decode_literal` — a recursive-descent reader for
one JSON value, fuelled by the input length. -/
def parseJsonVal : Nat → List Char → Option (JsonValue × List Char)
  | 0, _ => none
  | Nat.succ fuel, cs =>
    match skipWs cs with
    | 'n' :: 'u' :: 'l' :: 'l' :: rest => some (.jnull, rest)
    | 't' :: 'r' :: 'u' :: 'e' :: rest => some (.jbool true, rest)
    | 'f' :: 'a' :: 'l' :: 's' :: 'e' :: rest => some (.jbool false, rest)
    | '"' :: rest => (readStringChars rest).map (fun p => (.jstr (String.mk p.1), p.2))
    | '[' :: rest =>
      match skipWs rest with
      | ']' :: rest2 => some (.jlist [], rest2)
      | rest2 => (parseJsonItems fuel rest2).map (fun p => (.jlist p.1, p.2))
    | '-' :: rest =>
      match List.span Char.isDigit rest with
      | ([], _) => none
      | (ds, rest2) => some (.jint (-(Int.ofNat (digitsToNat ds))), rest2)
    | c :: rest =>
      if c.isDigit then
        match List.span Char.isDigit (c :: rest) with
        | (ds, rest2) => some (.jint (Int.ofNat (digitsToNat ds)), rest2)
      else none
    | [] => none

/-- The comma-separated items of a JSON array, up to the closing bracket. -/
def parseJsonItems : Nat → List Char → Option (List JsonValue × List Char)
  | 0, _ => none
  | Nat.succ fuel, cs =>
    match parseJsonVal fuel cs with
    | none => none
    | some (v, rest) =>
      match skipWs rest with
      | ',' :: rest2 =>
        match parseJsonItems fuel rest2 with
        | none => none
        | some (l, r) => some (v :: l, r)
      | ']' :: rest2 => some ([v], rest2)
      | _ => none

end

/-- Modelled from the spec: `json_utils.loads`; a malformed payload raises
(the spec's `MalformedValueError`). -/
def json_loads (s : String) : Except Err JsonValue :=
  match parseJsonVal (s.length + 1) s.toList with
  | some (v, rest) =>
    match skipWs rest with
    | [] => .ok v
    | _ => .error .malformedValue
  | none => .error .malformedValue

mutual

/-- Modelled from the spec: `encode_literal` (`json_utils.dumps`). -/
def json_dumps : JsonValue → String
  | .jnull => "null"
  | .jbool true => "true"
  | .jbool false => "false"
  | .jint i => toString i
  | .jstr s => "\"" ++ s ++ "\""
  | .jlist l => "[" ++ String.intercalate ", " (jsonDumpsList l) ++ "]"

/-- `encode_literal` over the elements of an array. -/
def jsonDumpsList : List JsonValue → List String
  | [] => []
  | v :: rest => json_dumps v :: jsonDumpsList rest

end

/-- A value of the parsed dictionary produced by `build_parsed_value_dict`:
Python `None`, a boolean, an integer, a string, a float, a deserialized
protobuf message, or a list of these. -/
inductive ParsedValue where
  | vnone
  | vbool (b : Bool)
  | vint (i : Int)
  | vfloat (f : PyFloat)
  | vstr (s : String)
  | vmsg (payload : String) (message_type : String) (file_descriptors : FileDescriptorSet)
  | vlist (l : List ParsedValue)

mutual

/-- The result of `json_utils.loads`, returned verbatim by `parse_value`'s
boolean branch. -/
def parsedOfJson : JsonValue → ParsedValue
  | .jnull => .vnone
  | .jbool b => .vbool b
  | .jint i => .vint i
  | .jstr s => .vstr s
  | .jlist l => .vlist (parsedOfJsonList l)

/-- `parsedOfJson` over a list. -/
def parsedOfJsonList : List JsonValue → List ParsedValue
  | [] => []
  | v :: rest => parsedOfJson v :: parsedOfJsonList rest

end

/-- The coercion of a bare primitive into the parsed-dictionary value space
(Python needs none; the embedding is typed). -/
def parsedOfProperty : Property → ParsedValue
  | .pInt i => .vint i
  | .pFloat f => .vfloat f
  | .pStr s => .vstr s

/-- Modelled from the spec: the Structured-Message Codec's
`deserialize(bytes_or_string, type_name, descriptor_set) -> value`
(`proto_utils.deserialize_proto_message`, outside `src/`); the resulting
message instance is represented by the codec's three inputs. -/
def deserialize_proto_message (value : String) (message_type : String)
    (file_descriptors : FileDescriptorSet) : ParsedValue :=
  .vmsg value message_type file_descriptors

/-- The inner `parse_value` of `build_parsed_value_dict` (source lines
100-108): `if value_type.HasField('proto_metadata')` → deserialize the
string; `elif value_type.boolean_type` (field truthiness, so a
`boolean_type` set to `false` falls through) → `json_utils.loads`; else the
function falls off the end and returns `None`.  The argument is the element
in hand: the whole stored string in the scalar case (`jstr`), or one element
of the decoded list payload, which need not be a string — branches that use
it as a string raise `TypeError` on a non-string. -/
def parse_value (value : JsonValue) (value_type : ValueType) : Except Err ParsedValue :=
  match value_type with
  | .proto_metadata mt fds =>
    match value with
    | .jstr s => .ok (deserialize_proto_message s mt fds)
    | _ => .error .typeError
  | .boolean_type b =>
    if b then
      match value with
      | .jstr s => (json_loads s).map parsedOfJson
      | _ => .error .typeError
    else .ok .vnone
  | .unset => .ok .vnone

/-- `parse_value` applied to each element of the decoded list payload, in
order (the list comprehension of source line 120). -/
def parse_list : List JsonValue → ValueType → Except Err (List ParsedValue)
  | [], _ => .ok []
  | v :: rest, vt =>
    match parse_value v vt with
    | .error e => .error e
    | .ok pv =>
      match parse_list rest vt with
      | .error e => .error e
      | .ok tail => .ok (pv :: tail)

/-- Key lookup in a string-keyed association list (`k in d` / `d[k]`). -/
def lookupKey {β : Type} (k : String) : List (String × β) → Option β
  | [] => none
  | (k2, v) :: rest => if k2 = k then some v else lookupKey k rest

/-- The decode arm of `build_parsed_value_dict` (source lines 115-122) for a
stored string with a schema present: if `container_type` is `LIST`, decode
the payload with the list codec — iterating a non-list result is a
`TypeError` — and `parse_value` each element; else `parse_value` the whole
string. -/
def decode_string (s : String) (schema : Schema) : Except Err ParsedValue :=
  match schema.container_type with
  | .LIST =>
    match json_loads s with
    | .error e => .error e
    | .ok (.jlist items) =>
      match parse_list items schema.value_type with
      | .error e => .error e
      | .ok l => .ok (.vlist l)
    | .ok _ => .error .typeError
  | .UNSPECIFIED => parse_value (.jstr s) schema.value_type

/-- One iteration of `build_parsed_value_dict`'s loop (source lines
113-125): decode when `v.HasField('string_value') and k in schema_dict`,
else `getattr(v, v.WhichOneof('value'))` pass-through. -/
def parse_entry (schema_dict : List (String × Schema)) (k : String)
    (v : MetadataValue) : Except Err ParsedValue :=
  match v, lookupKey k schema_dict with
  | .string_value s, some schema => decode_string s schema
  | v, _ => (getattr_value v).map parsedOfProperty

/-- `build_parsed_value_dict` (source lines 95-126). -/
def build_parsed_value_dict (value_dict : List (String × MetadataValue))
    (schema_dict : List (String × Schema)) : Except Err (List (String × ParsedValue)) :=
  match value_dict with
  | [] => .ok []
  | (k, v) :: rest =>
    match parse_entry schema_dict k v with
    | .error e => .error e
    | .ok pv =>
      match build_parsed_value_dict rest schema_dict with
      | .error e => .error e
      | .ok tail => .ok ((k, pv) :: tail)

/-- Modelled from the spec: `proto_utils.build_file_descriptor_set` (outside
`src/`), the Structured-Message Codec's `describe`. -/
def build_file_descriptor_set (fullName : String) : FileDescriptorSet :=
  ⟨fullName⟩

/-- The inner `set_value_type` of `set_parameter_value` (source lines
264-271): a message class fills `proto_metadata`, `bool` sets
`boolean_type = True`, and any other element type matches no branch and
leaves the schema untouched. -/
def set_value_type (value_type : PyType) (schema : Schema) : Schema :=
  match value_type with
  | .messageClass fullName =>
    { schema with value_type := .proto_metadata fullName (build_file_descriptor_set fullName) }
  | .boolType => { schema with value_type := .boolean_type true }
  | _ => schema

/-- `set_parameter_value` (source lines 238-294).  The `isinstance` chain
mirrors `set_metadata_value`'s (boolean guarded out of the integer branch,
falling to the final `raise ValueError`); for a string the field value is
set and then the schema is stamped from `property_type`: absent → none;
`List[T]` → `container_type = LIST` then `set_value_type` on `T`; another
generic alias → `ValueError`; `bool` or a message class → `set_value_type`;
any other class → `ValueError`. -/
def set_parameter_value (parameter_value : ParameterValue) (value : PyVal)
    (property_type : Option PyType) : Except Err ParameterValue :=
  match value with
  | .vBool _ => .error .unsupportedType
  | .vInt i => .ok { parameter_value with value := .field_value (.int_value i) }
  | .vFloat f => .ok { parameter_value with value := .field_value (.double_value f) }
  | .vStr s =>
    let pv := { parameter_value with value := .field_value (.string_value s) }
    match property_type with
    | none => .ok pv
    | some (.listOf elemT) =>
      .ok { pv with schema := set_value_type elemT { pv.schema with container_type := .LIST } }
    | some .otherGeneric => .error .unsupportedType
    | some .boolType => .ok { pv with schema := set_value_type .boolType pv.schema }
    | some (.messageClass n) => .ok { pv with schema := set_value_type (.messageClass n) pv.schema }
    | some .otherClass => .error .unsupportedType
  | .vParam _ => .error .unsupportedType
  | .vOther => .error .unsupportedType

/-- Structure of a successful `build_parsed_value_dict` run: the output keys
are the input keys in order, and each output value is the `parse_entry`
result for the paired input entry. -/
theorem bpvd_ok_spec (vd : List (String × MetadataValue)) (sd : List (String × Schema)) :
    ∀ result, build_parsed_value_dict vd sd = .ok result →
      result.map Prod.fst = vd.map Prod.fst ∧
      ∀ p ∈ vd.zip result, p.1.1 = p.2.1 ∧ parse_entry sd p.1.1 p.1.2 = .ok p.2.2 := by
  induction vd with
  | nil =>
    intro result h
    simp [build_parsed_value_dict] at h
    subst h
    simp
  | cons hd tl ih =>
    obtain ⟨k, v⟩ := hd
    intro result h
    rw [build_parsed_value_dict] at h
    cases hpe : parse_entry sd k v with
    | error e => rw [hpe] at h; simp at h
    | ok pv =>
      rw [hpe] at h
      cases hrec : build_parsed_value_dict tl sd with
      | error e => rw [hrec] at h; simp at h
      | ok tail =>
        rw [hrec] at h
        simp at h
        subst h
        obtain ⟨ih1, ih2⟩ := ih tail hrec
        refine ⟨by simp [ih1], ?_⟩
        intro p hp
        rw [List.zip_cons_cons] at hp
        rcases List.mem_cons.mp hp with h1 | h1
        · subst h1; exact ⟨rfl, hpe⟩
        · exact ih2 p h1

/-- Decoding a list payload whose element `value_type` is unset turns every
element into `None`. -/
theorem parse_list_unset (items : List JsonValue) :
    parse_list items ValueType.unset = .ok (items.map fun _ => ParsedValue.vnone) := by
  induction items with
  | nil => rfl
  | cons v rest ih => simp [parse_list, parse_value, ih]

/-- Claim C1: for every plain primitive value (non-boolean int, float, or
string), setting it into a fresh `metadata_store_pb2.Value` with
`set_metadata_value` and reading it back with `get_metadata_value` returns
the same value. -/
theorem claim_c1_roundtrip (p : Property) :
    (set_metadata_value .unset p.toPyVal).map get_metadata_value = .ok (some p) := by
  cases p <;> rfl

/-- Counterexample to claim C2: `get_metadata_value_type` classifies the
native boolean `True` as `INT` — `isinstance(value, int)` is the first check
and holds for a boolean, with no boolean guard before it. -/
theorem claim_c2_counterexample :
    get_metadata_value_type (.vBool true) = .ok .INT := rfl

/-- Claim C2 amended: `get_metadata_value_type` classifies every native
boolean input as `INT`, because the integer `isinstance` check comes first
and has no boolean guard. -/
theorem claim_c2_amended (b : Bool) :
    get_metadata_value_type (.vBool b) = .ok .INT := rfl

/-- Claim C3: for every boolean input and every target,
`set_metadata_value` raises (`ValueError`, the spec's
`UnsupportedTypeError`) rather than storing the boolean: the
`not isinstance(value, bool)` guard keeps it out of the integer branch and
no other branch accepts it. -/
theorem claim_c3_bool_excluded (target : MetadataValue) (b : Bool) :
    set_metadata_value target (.vBool b) = .error .unsupportedType := rfl

/-- Counterexample to claim C4: `build_metadata_value_dict` on a mapping
holding the boolean `True` does not raise — it stores the boolean in the
integer slot as 1, because its `isinstance(v, int)` check has no boolean
guard. -/
theorem claim_c4_counterexample :
    build_metadata_value_dict [("k", .vBool true)] = .ok [("k", .int_value 1)] := rfl

/-- Claim C4 amended: `build_metadata_value_dict` accepts a boolean value
and stores it as `int_value` 1/0 instead of raising; its integer branch has
no boolean guard (unlike `set_metadata_value`'s). -/
theorem claim_c4_amended (k : String) (b : Bool) :
    build_metadata_value_dict [(k, .vBool b)] =
      .ok [(k, .int_value (if b then 1 else 0))] := rfl

/-- Claim C5: the list-of-boolean value `[true, false]`, pre-packed by the
list codec, encoded with `set_parameter_value` under the declared type
`List[bool]`, and decoded from the stored string with the emitted schema by
`build_parsed_value_dict`, yields `[true, false]` again. -/
theorem claim_c5_schema_roundtrip :
    json_dumps (.jlist [.jstr (json_dumps (.jbool true)), .jstr (json_dumps (.jbool false))]) =
      "[\"true\", \"false\"]" ∧
    set_parameter_value ⟨.unset, ⟨.UNSPECIFIED, .unset⟩⟩ (.vStr ("[\"true\", \"false\"]"))
        (some (.listOf .boolType)) =
      .ok ⟨.field_value (.string_value ("[\"true\", \"false\"]")), ⟨.LIST, .boolean_type true⟩⟩ ∧
    build_parsed_value_dict [("p", .string_value ("[\"true\", \"false\"]"))]
        [("p", ⟨.LIST, .boolean_type true⟩)] =
      .ok [("p", .vlist [.vbool true, .vbool false])] :=
  ⟨rfl, rfl, rfl⟩

/-- Claim C6: `get_value` on a `pipeline_pb2.Value` whose populated oneof is
not `field_value` raises (`RuntimeError`, the spec's `UnresolvedValueError`);
when `field_value` holds a primitive it returns that primitive. -/
theorem claim_c6_unresolved_guard (pv : ParameterValue) :
    ((∀ fv, pv.value ≠ PVOneof.field_value fv) → get_value pv = .error .unresolvedValue) ∧
    (∀ p : Property, pv.value = .field_value p.toMetadataValue → get_value pv = .ok p) := by
  constructor
  · intro h
    cases hv : pv.value with
    | unset => simp [get_value, hv]
    | field_value fv => exact absurd hv (h fv)
    | runtime_parameter n => simp [get_value, hv]
    | placeholder q => simp [get_value, hv]
  · intro p hp
    cases p <;> simp [get_value, hp, Property.toMetadataValue, getattr_value]

/-- Witness for claim C6 at a runtime-parameter indirection and at a
populated field value. -/
theorem claim_c6_witness :
    get_value ⟨.runtime_parameter "rp", ⟨.UNSPECIFIED, .unset⟩⟩ = .error .unresolvedValue ∧
    get_value ⟨.field_value (.int_value 3), ⟨.UNSPECIFIED, .unset⟩⟩ = .ok (.pInt 3) :=
  ⟨(claim_c6_unresolved_guard _).1 (fun _ h => PVOneof.noConfusion h),
    (claim_c6_unresolved_guard _).2 (.pInt 3) rfl⟩

/-- Claim C7: on a successful run of `build_parsed_value_dict`, the output
key sequence equals the input key sequence exactly, and every key whose
stored value is not a string, or for which no schema entry exists, is mapped
to its bare populated primitive verbatim. -/
theorem claim_c7_pass_through (vd : List (String × MetadataValue))
    (sd : List (String × Schema)) (result : List (String × ParsedValue))
    (h : build_parsed_value_dict vd sd = .ok result) :
    result.map Prod.fst = vd.map Prod.fst ∧
    ∀ p ∈ vd.zip result,
      ((∀ s, p.1.2 ≠ MetadataValue.string_value s) ∨ lookupKey p.1.1 sd = none) →
      ∃ q, getattr_value p.1.2 = .ok q ∧ p.2.2 = parsedOfProperty q := by
  obtain ⟨h1, h2⟩ := bpvd_ok_spec vd sd result h
  refine ⟨h1, ?_⟩
  intro p hp hpass
  obtain ⟨hk, hpe⟩ := h2 p hp
  have hpass2 : parse_entry sd p.1.1 p.1.2 = (getattr_value p.1.2).map parsedOfProperty := by
    rcases hpass with hns | hnone
    · cases hv : p.1.2 with
      | string_value s => exact absurd hv (hns s)
      | unset => rfl
      | int_value i => rfl
      | double_value d => rfl
    · cases hv : p.1.2 with
      | string_value s => simp [parse_entry, hnone]
      | unset => rfl
      | int_value i => rfl
      | double_value d => rfl
  rw [hpass2] at hpe
  cases hq : getattr_value p.1.2 with
  | error e => rw [hq] at hpe; simp [Except.map] at hpe
  | ok q =>
    rw [hq] at hpe
    simp [Except.map] at hpe
    exact ⟨q, rfl, hpe.symm⟩

/-- Witness for claim C7 at the spec's own pass-through example: a string
value with no schema entry is passed through verbatim. -/
theorem claim_c7_witness :
    build_parsed_value_dict [("a", MetadataValue.string_value "x")] [] =
      .ok [("a", ParsedValue.vstr "x")] ∧
    ([("a", ParsedValue.vstr "x")].map Prod.fst =
        [("a", MetadataValue.string_value "x")].map Prod.fst ∧
      ∀ p ∈ [("a", MetadataValue.string_value "x")].zip [("a", ParsedValue.vstr "x")],
        ((∀ s, p.1.2 ≠ MetadataValue.string_value s) ∨
          lookupKey p.1.1 ([] : List (String × Schema)) = none) →
        ∃ q, getattr_value p.1.2 = .ok q ∧ p.2.2 = parsedOfProperty q) :=
  ⟨rfl, claim_c7_pass_through _ _ _ rfl⟩

/-- Counterexample to claim C8: for a stored string under a schema with
unset (PLAIN) `value_type` but `LIST` container, the key is mapped to a list
of `None`s, not to `None` itself. -/
theorem claim_c8_counterexample :
    build_parsed_value_dict [("a", .string_value ("[\"x\"]"))] [("a", ⟨.LIST, .unset⟩)] =
      .ok [("a", .vlist [.vnone])] ∧
    ParsedValue.vlist [ParsedValue.vnone] ≠ ParsedValue.vnone :=
  ⟨rfl, fun h => ParsedValue.noConfusion h⟩

/-- Claim C8 amended: for every key whose stored value is a string and whose
schema entry has unset (PLAIN) `value_type`, `build_parsed_value_dict` maps
the key to `None` when the container is not `LIST`, and to a list with
`None` for every element when the container is `LIST` — never to the raw
string. -/
theorem claim_c8_plain_drops_value (vd : List (String × MetadataValue))
    (sd : List (String × Schema)) (result : List (String × ParsedValue))
    (h : build_parsed_value_dict vd sd = .ok result) :
    ∀ p ∈ vd.zip result, ∀ s, p.1.2 = MetadataValue.string_value s →
      ∀ sch, lookupKey p.1.1 sd = some sch → sch.value_type = ValueType.unset →
      (sch.container_type ≠ ContainerType.LIST → p.2.2 = ParsedValue.vnone) ∧
      (sch.container_type = ContainerType.LIST →
        ∃ l, p.2.2 = ParsedValue.vlist l ∧ ∀ x ∈ l, x = ParsedValue.vnone) := by
  intro p hp s hs sch hsch hvt
  obtain ⟨-, h2⟩ := bpvd_ok_spec vd sd result h
  obtain ⟨hk, hpe⟩ := h2 p hp
  rw [hs] at hpe
  have hpe2 : decode_string s sch = .ok p.2.2 := by
    simpa [parse_entry, hsch] using hpe
  constructor
  · intro hne
    have hct : sch.container_type = ContainerType.UNSPECIFIED := by
      cases hc : sch.container_type with
      | UNSPECIFIED => rfl
      | LIST => exact absurd hc hne
    simp [decode_string, hct, hvt, parse_value] at hpe2
    exact hpe2.symm
  · intro hl
    simp [decode_string, hl, hvt] at hpe2
    cases hj : json_loads s with
    | error e => rw [hj] at hpe2; simp at hpe2
    | ok j =>
      rw [hj] at hpe2
      cases j with
      | jnull => simp at hpe2
      | jbool b => simp at hpe2
      | jint i => simp at hpe2
      | jstr t => simp at hpe2
      | jlist items =>
        simp [parse_list_unset] at hpe2
        refine ⟨List.replicate items.length ParsedValue.vnone, hpe2.symm, ?_⟩
        intro x hx
        exact List.eq_of_mem_replicate hx

/-- Witness for claim C8's amended theorem at a concrete scalar entry: a
stored string under a schema with unset value type and non-LIST container
decodes to `None`. -/
theorem claim_c8_witness :
    build_parsed_value_dict [("a", MetadataValue.string_value "x")]
        [("a", (⟨.UNSPECIFIED, .unset⟩ : Schema))] = .ok [("a", ParsedValue.vnone)] ∧
    (("a", MetadataValue.string_value "x"), ("a", ParsedValue.vnone)).2.2 = ParsedValue.vnone :=
  ⟨rfl,
    (claim_c8_plain_drops_value [("a", MetadataValue.string_value "x")]
        [("a", ⟨.UNSPECIFIED, .unset⟩)] [("a", ParsedValue.vnone)] rfl
        (("a", MetadataValue.string_value "x"), ("a", ParsedValue.vnone))
        (List.mem_singleton_self _)
        "x" rfl ⟨.UNSPECIFIED, .unset⟩ rfl rfl).1
      (fun hc => ContainerType.noConfusion hc)⟩

/-- Claim C9: `set_metadata_value` is atomic on its target — whenever it
raises (boolean input, unsupported runtime type, or a `pipeline_pb2.Value`
not in `field_value` form) the passed-in target message is left unchanged,
and on success the returned message is exactly the mutated target. -/
theorem claim_c9_atomicity (target : MetadataValue) (v : PyVal) :
    (∀ e, (set_metadata_value_state target v).1 = .error e →
      (set_metadata_value_state target v).2 = target) ∧
    (∀ r, (set_metadata_value_state target v).1 = .ok r →
      (set_metadata_value_state target v).2 = r) := by
  cases v with
  | vBool b => simp [set_metadata_value_state]
  | vInt i => simp [set_metadata_value_state]
  | vFloat f => simp [set_metadata_value_state]
  | vStr s => simp [set_metadata_value_state]
  | vParam p => cases hv : p.value <;> simp [set_metadata_value_state, hv]
  | vOther => simp [set_metadata_value_state]

/-- Witness for claim C9: a boolean input raises and leaves the target
untouched; a string input succeeds and returns the mutated target. -/
theorem claim_c9_witness :
    (set_metadata_value_state (.int_value 7) (.vBool true)).2 = MetadataValue.int_value 7 ∧
    (set_metadata_value_state (.int_value 7) (.vStr "s")).2 = MetadataValue.string_value "s" :=
  ⟨(claim_c9_atomicity (.int_value 7) (.vBool true)).1 .unsupportedType rfl,
    (claim_c9_atomicity (.int_value 7) (.vStr "s")).2 (.string_value "s") rfl⟩

/-- Claim C10: `build_value_dict` fails (with a `TypeError` from
`getattr(v, None)`) as soon as the mapping contains an unset
`metadata_store_pb2.Value`, succeeds exactly when every value is populated,
and is thereby unlike `get_metadata_value`, which returns `None` for the
unset value. -/
theorem claim_c10_unset_fails (dict : List (String × MetadataValue)) :
    ((∃ p ∈ dict, p.2 = MetadataValue.unset) → build_value_dict dict = .error .typeError) ∧
    ((∀ p ∈ dict, p.2 ≠ MetadataValue.unset) → ∃ r, build_value_dict dict = .ok r) ∧
    get_metadata_value .unset = none := by
  induction dict with
  | nil =>
    refine ⟨?_, ?_, rfl⟩
    · rintro ⟨p, hp, -⟩
      exact absurd hp (List.not_mem_nil p)
    · intro
      exact ⟨[], rfl⟩
  | cons hd tl ih =>
    obtain ⟨k, v⟩ := hd
    refine ⟨?_, ?_, rfl⟩
    · rintro ⟨p, hp, hun⟩
      rcases List.mem_cons.mp hp with h1 | h1
      · subst h1
        simp only at hun
        subst hun
        rfl
      · have htl := ih.1 ⟨p, h1, hun⟩
        cases v <;> simp [build_value_dict, getattr_value, htl]
    · intro hall
      have hv : v ≠ .unset := hall (k, v) (List.mem_cons_self _ _)
      obtain ⟨r, hr⟩ := ih.2.1 (fun p hp => hall p (List.mem_cons_of_mem _ hp))
      cases v with
      | unset => exact absurd rfl hv
      | int_value i =>
        exact ⟨(k, .pInt i) :: r, by simp [build_value_dict, getattr_value, hr]⟩
      | double_value d =>
        exact ⟨(k, .pFloat d) :: r, by simp [build_value_dict, getattr_value, hr]⟩
      | string_value s =>
        exact ⟨(k, .pStr s) :: r, by simp [build_value_dict, getattr_value, hr]⟩

/-- Witness for claim C10: a mapping with an unset value fails with the
`TypeError`, while `get_metadata_value` of the unset value is `None`. -/
theorem claim_c10_witness :
    build_value_dict [("a", MetadataValue.unset)] = .error .typeError ∧
    get_metadata_value .unset = none :=
  ⟨(claim_c10_unset_fails [("a", MetadataValue.unset)]).1
      ⟨("a", MetadataValue.unset), List.mem_singleton.mpr rfl, rfl⟩,
    (claim_c10_unset_fails []).2.2⟩
